import Mathlib

/-!
# BugBite task & reward engine — verification development

Shallow embedding of the state/reward engine of the BugBite habit tracker
(`src/state/store.ts`), together with theorems settling the specification
claims about it.

Modelling conventions:
* JavaScript `number` values used as integers (coins, infestation, counts,
  `timesPerDay`, …) are modelled as `Int`; `Math.min`/`Math.max` become
  `min`/`max` on `Int`.
* Date-only ISO strings (`YYYY-MM-DD`) are represented structurally by `YMD`;
  `parseDateOnly`/`formatDateOnly` are therefore implicit in the
  representation, except where the store compares strings
  (`lastSpawnDateISO`), where `formatDateOnly` is applied.  Full ISO
  timestamps (`createdAtISO`, `dateISO`, `actionAtISO`) are opaque strings.
* The ambient clock (`new Date()`) is passed in explicitly: operations that
  read the clock take the full timestamp `nowISO : String` and its date part
  `today : YMD`; `getMonthKey` is computed from `today`.
* `generateId()` is modelled by an injected generator function; the store
  only ever treats ids as opaque strings.
* JavaScript object maps (`monthlyStats`) are association lists with
  insertion-order-preserving update, mirroring `{...map, [key]: value}`.
* The store's `?? fallback` reads of fields that `types.ts` declares
  non-nullable (`remainingToday ?? 0`, `nextDueDateISO ?? today`) are the
  identity on the non-null representation and are dropped.
* The mutable-capture-inside-`map` pattern (`smashTodo`, `failTodo`,
  `failRecurrent`, `smashRecurrent` assign `coinsEarned`/`prevTodo`/… from
  inside a `.map` callback, so the *last* matching element wins) is modelled
  by a `foldl` (`lastMatch?` and friends) that returns the last match.
-/

/-- `Difficulty` from `types.ts`. -/
inductive Difficulty
  | easy
  | medium
  | hard
  | boss
deriving DecidableEq, Repr

/-- `TodoStatus` from `types.ts`: the 3-state task lifecycle. -/
inductive TodoStatus
  | locked
  | unlocked
  | smashed
deriving DecidableEq, Repr

/-- `IntervalType` from `types.ts`. -/
inductive IntervalType
  | daily
  | weekly
  | monthly
deriving DecidableEq, Repr

/-- `ActiveBugState` from `types.ts` (the store uses `ActiveBugState | null`,
modelled as `Option ActiveBugState`). -/
inductive ActiveBugState
  | locked
  | unlocked
deriving DecidableEq, Repr

/-- The `"plus" | "minus" | null` `lastOutcome` values set by the store. -/
inductive Outcome
  | plus
  | minus
deriving DecidableEq, Repr

/-- `ChecklistItem` from `types.ts`. -/
structure ChecklistItem where
  id : String
  text : String
  done : Bool
deriving DecidableEq, Repr

/-- A date-only value `YYYY-MM-DD`; `month` is 1-based as in the ISO string. -/
structure YMD where
  year : Nat
  month : Nat
  day : Nat
deriving DecidableEq, Repr

/-- `Todo` from `types.ts` (plus the `lastOutcome` field the store writes). -/
structure Todo where
  id : String
  title : String
  difficulty : Difficulty
  status : TodoStatus
  createdAtISO : String
  note : Option String
  checklist : Option (List ChecklistItem)
  lastOutcome : Option Outcome
deriving DecidableEq, Repr

/-- `Recurrent` from `types.ts` (plus the `lastOutcome` field the store
writes).  `nextDueDateISO` is represented structurally as a `YMD`. -/
structure Recurrent where
  id : String
  title : String
  difficulty : Difficulty
  intervalType : IntervalType
  timesPerDay : Int
  remainingToday : Int
  lastSpawnDateISO : Option String
  nextDueDateISO : YMD
  activeBugState : Option ActiveBugState
  createdAtISO : String
  note : Option String
  checklist : Option (List ChecklistItem)
  lastOutcome : Option Outcome
deriving DecidableEq, Repr

/-- The `type` discriminant of a `MonthlyItem`. -/
inductive EntryType
  | todo
  | recurrent
deriving DecidableEq, Repr

/-- `MonthlyItem` from `store.ts`. -/
structure MonthlyItem where
  id : String
  title : String
  dateISO : String
  difficulty : Difficulty
  type : EntryType
deriving DecidableEq, Repr

/-- `MonthlyStats` from `store.ts`. -/
structure MonthlyStats where
  smashedCount : Int
  missedCount : Int
  smashedItems : List MonthlyItem
  missedItems : List MonthlyItem
deriving DecidableEq, Repr

/-- `MonthlyStatsMap` (`Record<string, MonthlyStats>`), as an
insertion-ordered association list. -/
abbrev StatsMap := List (String × MonthlyStats)

/-- The entity snapshot inside a `lastAction` record (the discriminated union
`{type: "todo", prevTodo} | {type: "recurrent", prevRecurrent}`). -/
inductive PrevEntity
  | todoPrev (prevTodo : Todo)
  | recurrentPrev (prevRecurrent : Recurrent)
deriving DecidableEq, Repr

/-- The single-slot `lastAction` undo record from `store.ts`; the fields
shared by both union arms are factored out. -/
structure LastAction where
  itemId : String
  prev : PrevEntity
  prevCoins : Int
  prevInfestation : Int
  prevMonthlyStats : StatsMap
  actionAtISO : String
deriving DecidableEq

/-- The single-slot `recentlyDeleted` buffer from `store.ts`. -/
inductive RecentlyDeleted
  | todoDeleted (item : Todo) (deletedAtISO : String)
  | recurrentDeleted (item : Recurrent) (deletedAtISO : String)
deriving DecidableEq, Repr

/-- The persisted document of `useBugBiteStore` (`BugBiteState` data fields). -/
structure BugBiteState where
  todos : List Todo
  recurrent : List Recurrent
  coins : Int
  infestation : Int
  monthlyStats : StatsMap
  loading : Bool
  recentlyDeleted : Option RecentlyDeleted
  lastAction : Option LastAction
deriving DecidableEq

/-- The store's initial document. -/
def initialState : BugBiteState :=
  { todos := []
    recurrent := []
    coins := 0
    infestation := 0
    monthlyStats := []
    loading := true
    recentlyDeleted := none
    lastAction := none }

/-- `COIN_REWARDS` from `store.ts`. -/
def COIN_REWARDS : Difficulty → Int
  | .easy => 1
  | .medium => 2
  | .hard => 3
  | .boss => 5

/-- `FAIL_WEIGHTS` from `store.ts`. -/
def FAIL_WEIGHTS : Difficulty → Int
  | .easy => 1
  | .medium => 1
  | .hard => 2
  | .boss => 3

/-- `String.padStart(2, "0")` applied to a small number. -/
def pad2 (n : Nat) : String :=
  if n < 10 then "0" ++ toString n else toString n

/-- `getMonthKey` from `store.ts`, on the date part of the timestamp. -/
def getMonthKey (d : YMD) : String :=
  toString d.year ++ "-" ++ pad2 d.month

/-- `formatDateOnly` from `store.ts`. -/
def formatDateOnly (d : YMD) : String :=
  toString d.year ++ "-" ++ pad2 d.month ++ "-" ++ pad2 d.day

/-- Association-list lookup, mirroring property access `map[key]`. -/
def getMonth? (ms : StatsMap) (k : String) : Option MonthlyStats :=
  (List.find? (fun p => p.1 = k) ms).map (fun p => p.2)

/-- Object-spread update `{...map, [key]: value}`: replaces the binding in
place when the key is present, otherwise appends it. -/
def setMonth (ms : StatsMap) (k : String) (v : MonthlyStats) : StatsMap :=
  if List.any ms (fun p => p.1 = k) then
    List.map (fun p => if p.1 = k then (k, v) else p) ms
  else
    ms ++ [(k, v)]

/-- `ensureMonthlyStats` from `store.ts`. -/
def ensureMonthlyStats (ms : StatsMap) (k : String) : MonthlyStats :=
  (getMonth? ms k).getD
    { smashedCount := 0, missedCount := 0, smashedItems := [], missedItems := [] }

/-- `pushMonthlyItem` from `store.ts`: prepend, keep the first 200. -/
def pushMonthlyItem (items : List MonthlyItem) (item : MonthlyItem) : List MonthlyItem :=
  List.take 200 (item :: items)

/-- The `update` argument of `updateMonthlyStats`. -/
structure StatsUpdate where
  smashedDelta : Option Int := none
  missedDelta : Option Int := none
  smashedItem : Option MonthlyItem := none
  missedItem : Option MonthlyItem := none

/-- `updateMonthlyStats` from `store.ts`. -/
def updateMonthlyStats (ms : StatsMap) (k : String) (u : StatsUpdate) : StatsMap :=
  let current := ensureMonthlyStats ms k
  setMonth ms k
    { smashedCount := max 0 (current.smashedCount + u.smashedDelta.getD 0)
      missedCount := max 0 (current.missedCount + u.missedDelta.getD 0)
      smashedItems :=
        match u.smashedItem with
        | some item => pushMonthlyItem current.smashedItems item
        | none => current.smashedItems
      missedItems :=
        match u.missedItem with
        | some item => pushMonthlyItem current.missedItems item
        | none => current.missedItems }

/-- Gregorian leap-year rule as implemented by the JavaScript `Date`. -/
def isLeap (y : Nat) : Bool :=
  (y % 4 == 0 && y % 100 != 0) || y % 400 == 0

/-- Number of days of month `m` (1-based) of year `y`. -/
def daysInMonth (y m : Nat) : Nat :=
  if m = 2 then (if isLeap y then 29 else 28)
  else if m = 4 ∨ m = 6 ∨ m = 9 ∨ m = 11 then 30
  else 31

/-- The calendar day after `d` (JavaScript `setDate(getDate() + 1)` on a
valid date). -/
def nextDay (d : YMD) : YMD :=
  if d.day < daysInMonth d.year d.month then ⟨d.year, d.month, d.day + 1⟩
  else if d.month < 12 then ⟨d.year, d.month + 1, 1⟩
  else ⟨d.year + 1, 1, 1⟩

/-- `k` applications of `nextDay` (JavaScript `setDate(getDate() + k)`). -/
def addDays (k : Nat) (d : YMD) : YMD :=
  match k with
  | 0 => d
  | k + 1 => nextDay (addDays k d)

/-- JavaScript `setMonth(getMonth() + 1)` before day normalisation: the month
index advances (rolling the year), the day-of-month is kept as is. -/
def nextMonth (d : YMD) : YMD :=
  if d.month < 12 then ⟨d.year, d.month + 1, d.day⟩ else ⟨d.year + 1, 1, d.day⟩

/-- JavaScript `Date` day-overflow normalisation, for overflows that fit in
one month (always the case for days ≤ 31): a day past the end of the month
rolls into the following month. -/
def normalizeDay (d : YMD) : YMD :=
  let dim := daysInMonth d.year d.month
  if d.day ≤ dim then d
  else if d.month < 12 then ⟨d.year, d.month + 1, d.day - dim⟩
  else ⟨d.year + 1, 1, d.day - dim⟩

/-- `addIntervalDays` from `store.ts`: `weekly` does `setDate(+7)`, `monthly`
does `setMonth(+1)` (with JavaScript overflow semantics), anything else
(`daily`) does `setDate(+1)`. -/
def addIntervalDays (d : YMD) (intervalType : IntervalType) : YMD :=
  match intervalType with
  | .weekly => addDays 7 d
  | .monthly => normalizeDay (nextMonth d)
  | .daily => addDays 1 d

/-- `isDue` from `store.ts`: `getTime()` comparison of the two date-only
values, i.e. calendar order. -/
def isDue (today nextDue : YMD) : Prop :=
  nextDue.year < today.year ∨
    (nextDue.year = today.year ∧
      (nextDue.month < today.month ∨
        (nextDue.month = today.month ∧ nextDue.day ≤ today.day)))

instance (today nextDue : YMD) : Decidable (isDue today nextDue) := by
  unfold isDue; infer_instance

/-- The last element of `todos` matching `id`: the value the mutable
`coinsEarned`/`prevTodo`/`missedItem` captures inside the store's `.map`
callbacks end up holding. -/
def lastMatch? (todos : List Todo) (id : String) : Option Todo :=
  List.foldl (fun acc t => if t.id = id then some t else acc) none todos

/-- Same capture for the recurrent list. -/
def lastMatchR? (items : List Recurrent) (id : String) : Option Recurrent :=
  List.foldl (fun acc r => if r.id = id then some r else acc) none items

/-- The capture of `smashRecurrent`, which only fires when the item also has
`activeBugState === "unlocked"`. -/
def lastMatchUnlockedR? (items : List Recurrent) (id : String) : Option Recurrent :=
  List.foldl
    (fun acc r =>
      if r.id = id ∧ r.activeBugState = some .unlocked then some r else acc)
    none items

/-- Executable model of JavaScript `String.prototype.trim` (and of Lean's
built-in trim): drop leading and trailing whitespace characters. -/
def strTrim (s : String) : String :=
  String.mk (((s.data.dropWhile Char.isWhitespace).reverse.dropWhile
    Char.isWhitespace).reverse)

/-- `options?.note?.trim() || undefined`: trim, and turn the empty string
into `undefined`. -/
def normNote (n : Option String) : Option String :=
  match n with
  | none => none
  | some v => let t := strTrim v; if t = "" then none else some t

/-- `checklist && checklist.length > 0 ? checklist : undefined`. -/
def normChecklist (c : Option (List ChecklistItem)) : Option (List ChecklistItem) :=
  match c with
  | none => none
  | some l => if 0 < l.length then some l else none

/-- The `options` argument of `addTodo`. -/
structure AddTodoOptions where
  count : Option Int := none
  note : Option String := none
  checklist : Option (List ChecklistItem) := none

/-- `addTodo` from `store.ts`.  `gen i j` models `generateId()`: it supplies
the id of the `i`-th created todo (`j = 0`) and of the `j-1`-th cloned
checklist item of that todo (`j > 0`). -/
def addTodo (nowISO : String) (gen : Nat → Nat → String) (title : String)
    (difficulty : Difficulty) (options : AddTodoOptions)
    (s : BugBiteState) : BugBiteState :=
  let count : Int := min 10 (max 1 (options.count.getD 1))
  let trimmedTitle := strTrim title
  let checklistTemplate :=
    match options.checklist with
    | some l => if 0 < l.length then some l else none
    | none => none
  let note := normNote options.note
  let newTodos : List Todo :=
    (List.range count.toNat).map (fun index =>
      { id := gen index 0
        title :=
          if 1 < count then
            trimmedTitle ++ " (" ++ toString (index + 1) ++ "/" ++ toString count ++ ")"
          else trimmedTitle
        difficulty := difficulty
        status := .locked
        createdAtISO := nowISO
        note := note
        checklist :=
          match checklistTemplate with
          | some template =>
              some (template.enum.map (fun p => { p.2 with id := gen index (p.1 + 1) }))
          | none => none
        lastOutcome := none })
  { s with todos := newTodos ++ s.todos }

/-- The `updates` argument of `updateTodo`. -/
structure TodoUpdates where
  title : String
  difficulty : Difficulty
  note : Option String := none
  checklist : Option (List ChecklistItem) := none

/-- `updateTodo` from `store.ts`. -/
def updateTodo (id : String) (u : TodoUpdates) (s : BugBiteState) : BugBiteState :=
  let note := normNote u.note
  let checklist := normChecklist u.checklist
  { s with
    todos := s.todos.map (fun t =>
      if t.id = id then
        { t with title := u.title, difficulty := u.difficulty
                 note := note, checklist := checklist }
      else t) }

/-- `deleteTodo` from `store.ts`. -/
def deleteTodo (nowISO : String) (id : String) (s : BugBiteState) : BugBiteState :=
  match s.todos.find? (fun t => t.id = id) with
  | none => s
  | some target =>
      { s with
        todos := s.todos.filter (fun t => ¬t.id = id)
        recentlyDeleted := some (.todoDeleted target nowISO) }

/-- The `options` argument of `addRecurrent`. -/
structure AddRecurrentOptions where
  note : Option String := none
  checklist : Option (List ChecklistItem) := none

/-- `addRecurrent` from `store.ts` (note: the title is stored untrimmed). -/
def addRecurrent (nowISO : String) (today : YMD) (gen : String) (title : String)
    (difficulty : Difficulty) (intervalType : IntervalType) (timesPerDay : Int)
    (options : AddRecurrentOptions) (s : BugBiteState) : BugBiteState :=
  let checklist := normChecklist options.checklist
  let note := normNote options.note
  let newRecurrent : Recurrent :=
    { id := gen
      title := title
      difficulty := difficulty
      intervalType := intervalType
      timesPerDay := timesPerDay
      remainingToday := 0
      lastSpawnDateISO := none
      nextDueDateISO := today
      activeBugState := none
      createdAtISO := nowISO
      note := note
      checklist := checklist
      lastOutcome := none }
  { s with recurrent := newRecurrent :: s.recurrent }

/-- `spawnDueRecurrentBugs` from `store.ts`. -/
def spawnDueRecurrentBugs (today : YMD) (s : BugBiteState) : BugBiteState :=
  let todayStr := formatDateOnly today
  { s with
    recurrent := s.recurrent.map (fun item =>
      if isDue today item.nextDueDateISO ∧ item.lastSpawnDateISO ≠ some todayStr then
        { item with
          remainingToday := item.timesPerDay
          lastSpawnDateISO := some todayStr
          activeBugState := some .locked
          lastOutcome := none }
      else item) }

/-- `completeRecurrent` from `store.ts`. -/
def completeRecurrent (id : String) (s : BugBiteState) : BugBiteState :=
  { s with
    recurrent := s.recurrent.map (fun item =>
      if item.id = id ∧ 0 < item.remainingToday then
        { item with
          remainingToday := item.remainingToday - 1
          lastOutcome := some .plus
          activeBugState :=
            if item.remainingToday - 1 = 0 then some .unlocked
            else item.activeBugState }
      else item) }

/-- `failRecurrent` from `store.ts`.  Note: it updates the monthly stats and
the undo slot but leaves `infestation` untouched. -/
def failRecurrent (nowISO : String) (today : YMD) (id : String)
    (s : BugBiteState) : BugBiteState :=
  let monthKey := getMonthKey today
  let found := lastMatchR? s.recurrent id
  { s with
    recurrent := s.recurrent.map (fun item =>
      if item.id = id then { item with lastOutcome := some .minus } else item)
    monthlyStats :=
      match found with
      | some r =>
          updateMonthlyStats s.monthlyStats monthKey
            { missedDelta := some 1
              smashedDelta := some (-1)
              missedItem := some ⟨r.id, r.title, nowISO, r.difficulty, .recurrent⟩ }
      | none => s.monthlyStats
    lastAction :=
      match found with
      | some r =>
          some ⟨id, .recurrentPrev r, s.coins, s.infestation, s.monthlyStats, nowISO⟩
      | none => s.lastAction }

/-- `unlockTodo` from `store.ts`. -/
def unlockTodo (nowISO : String) (id : String) (s : BugBiteState) : BugBiteState :=
  match s.todos.find? (fun t => t.id = id) with
  | none => s
  | some target =>
      if target.status = .locked then
        { s with
          todos := s.todos.map (fun t =>
            if t.id = id then { t with status := .unlocked, lastOutcome := some .plus }
            else t)
          lastAction :=
            some ⟨id, .todoPrev target, s.coins, s.infestation, s.monthlyStats, nowISO⟩ }
      else s

/-- `smashTodo` from `store.ts`.  Note: the only check inside the `.map`
callback is the id match — there is no `status` guard. -/
def smashTodo (nowISO : String) (today : YMD) (id : String)
    (s : BugBiteState) : BugBiteState :=
  let monthKey := getMonthKey today
  let found := lastMatch? s.todos id
  let coinsEarned : Int :=
    match found with
    | some t => COIN_REWARDS t.difficulty
    | none => 0
  { s with
    todos := s.todos.map (fun t =>
      if t.id = id then { t with status := .smashed, lastOutcome := none } else t)
    coins := s.coins + coinsEarned
    monthlyStats :=
      match found with
      | some t =>
          updateMonthlyStats s.monthlyStats monthKey
            { smashedDelta := some 1
              smashedItem := some ⟨t.id, t.title, nowISO, t.difficulty, .todo⟩ }
      | none => s.monthlyStats }

/-- `smashRecurrent` from `store.ts`: guarded by
`activeBugState === "unlocked"`. -/
def smashRecurrent (nowISO : String) (today : YMD) (id : String)
    (s : BugBiteState) : BugBiteState :=
  let monthKey := getMonthKey today
  let found := lastMatchUnlockedR? s.recurrent id
  let coinsEarned : Int :=
    match found with
    | some r => COIN_REWARDS r.difficulty
    | none => 0
  { s with
    recurrent := s.recurrent.map (fun item =>
      if item.id = id ∧ item.activeBugState = some .unlocked then
        { item with
          activeBugState := none
          remainingToday := 0
          lastOutcome := none
          nextDueDateISO := addIntervalDays item.nextDueDateISO item.intervalType }
      else item)
    coins := s.coins + coinsEarned
    monthlyStats :=
      match found with
      | some r =>
          updateMonthlyStats s.monthlyStats monthKey
            { smashedDelta := some 1
              smashedItem := some ⟨r.id, r.title, nowISO, r.difficulty, .recurrent⟩ }
      | none => s.monthlyStats }

/-- The `updates` argument of `updateRecurrent`. -/
structure RecurrentUpdates where
  title : String
  difficulty : Difficulty
  intervalType : IntervalType
  timesPerDay : Int
  note : Option String := none
  checklist : Option (List ChecklistItem) := none

/-- `updateRecurrent` from `store.ts`. -/
def updateRecurrent (id : String) (u : RecurrentUpdates) (s : BugBiteState) :
    BugBiteState :=
  let note := normNote u.note
  let checklist := normChecklist u.checklist
  { s with
    recurrent := s.recurrent.map (fun item =>
      if item.id = id then
        { item with
          title := u.title
          difficulty := u.difficulty
          intervalType := u.intervalType
          timesPerDay := u.timesPerDay
          remainingToday := min item.remainingToday u.timesPerDay
          note := note
          checklist := checklist }
      else item) }

/-- `deleteRecurrent` from `store.ts`. -/
def deleteRecurrent (nowISO : String) (id : String) (s : BugBiteState) :
    BugBiteState :=
  match s.recurrent.find? (fun r => r.id = id) with
  | none => s
  | some target =>
      { s with
        recurrent := s.recurrent.filter (fun r => ¬r.id = id)
        recentlyDeleted := some (.recurrentDeleted target nowISO) }

/-- `undoRecentlyDeleted` from `store.ts`. -/
def undoRecentlyDeleted (s : BugBiteState) : BugBiteState :=
  match s.recentlyDeleted with
  | none => s
  | some (.todoDeleted item _) =>
      { s with todos := item :: s.todos, recentlyDeleted := none }
  | some (.recurrentDeleted item _) =>
      { s with recurrent := item :: s.recurrent, recentlyDeleted := none }

/-- `clearRecentlyDeleted` from `store.ts`. -/
def clearRecentlyDeleted (s : BugBiteState) : BugBiteState :=
  { s with recentlyDeleted := none }

/-- `undoLastAction` from `store.ts`. -/
def undoLastAction (s : BugBiteState) : BugBiteState :=
  match s.lastAction with
  | none => s
  | some la =>
      match la.prev with
      | .todoPrev prevTodo =>
          { s with
            todos := s.todos.map (fun t => if t.id = la.itemId then prevTodo else t)
            coins := la.prevCoins
            infestation := la.prevInfestation
            monthlyStats := la.prevMonthlyStats
            lastAction := none }
      | .recurrentPrev prevRecurrent =>
          { s with
            recurrent :=
              s.recurrent.map (fun r => if r.id = la.itemId then prevRecurrent else r)
            coins := la.prevCoins
            infestation := la.prevInfestation
            monthlyStats := la.prevMonthlyStats
            lastAction := none }

/-- `clearLastAction` from `store.ts`. -/
def clearLastAction (s : BugBiteState) : BugBiteState :=
  { s with lastAction := none }

/-- `setLoading` from `store.ts`. -/
def setLoading (loading : Bool) (s : BugBiteState) : BugBiteState :=
  { s with loading := loading }

/-- `failTodo` from `store.ts`.  `infestation` becomes
`Math.min(10, infestation + failWeight)`; when the id is absent the captured
`failWeight` stays `0`. -/
def failTodo (nowISO : String) (today : YMD) (id : String)
    (s : BugBiteState) : BugBiteState :=
  let monthKey := getMonthKey today
  let found := lastMatch? s.todos id
  let failWeight : Int :=
    match found with
    | some t => FAIL_WEIGHTS t.difficulty
    | none => 0
  { s with
    todos := s.todos.map (fun t =>
      if t.id = id then { t with lastOutcome := some .minus } else t)
    infestation := min 10 (s.infestation + failWeight)
    monthlyStats :=
      match found with
      | some t =>
          updateMonthlyStats s.monthlyStats monthKey
            { missedDelta := some 1
              smashedDelta := some (-1)
              missedItem := some ⟨t.id, t.title, nowISO, t.difficulty, .todo⟩ }
      | none => s.monthlyStats
    lastAction :=
      match found with
      | some t =>
          some ⟨id, .todoPrev t, s.coins, s.infestation, s.monthlyStats, nowISO⟩
      | none => s.lastAction }

/-- The poison sizes of the shop catalogue. -/
inductive PoisonSize
  | small
  | medium
  | large
deriving DecidableEq, Repr

/-- Modelled from the spec: the repository ships no `buyPoison`
implementation (`ShopScreen.tsx` is a placeholder); the catalogue cost per
size is the one of spec §4.3. -/
def POISON_COST : PoisonSize → Int
  | .small => 5
  | .medium => 12
  | .large => 18

/-- Modelled from the spec: infestation cleared per poison size of the spec
§4.3 catalogue. -/
def POISON_CLEAR : PoisonSize → Int
  | .small => 1
  | .medium => 3
  | .large => 5

/-- Modelled from the spec: `buyPoison(size)` is absent from the source
(`ShopScreen.tsx` is a placeholder screen).  Per spec §4.3 it fails with no
state change when `coins < cost`, otherwise debits the cost and reduces
infestation by the clear amount, floored at 0. -/
def buyPoison (size : PoisonSize) (s : BugBiteState) : BugBiteState :=
  if s.coins < POISON_COST size then s
  else
    { s with
      coins := s.coins - POISON_COST size
      infestation := max 0 (s.infestation - POISON_CLEAR size) }

/-- One engine operation, with all its external inputs (clock, ids,
arguments).  Covers every mutating operation `store.ts` exposes. -/
inductive Op
  | addTodoOp (nowISO : String) (gen : Nat → Nat → String) (title : String)
      (difficulty : Difficulty) (options : AddTodoOptions)
  | updateTodoOp (id : String) (u : TodoUpdates)
  | deleteTodoOp (nowISO : String) (id : String)
  | addRecurrentOp (nowISO : String) (today : YMD) (gen : String) (title : String)
      (difficulty : Difficulty) (intervalType : IntervalType) (timesPerDay : Int)
      (options : AddRecurrentOptions)
  | spawnOp (today : YMD)
  | completeRecurrentOp (id : String)
  | failRecurrentOp (nowISO : String) (today : YMD) (id : String)
  | unlockTodoOp (nowISO : String) (id : String)
  | smashTodoOp (nowISO : String) (today : YMD) (id : String)
  | smashRecurrentOp (nowISO : String) (today : YMD) (id : String)
  | updateRecurrentOp (id : String) (u : RecurrentUpdates)
  | deleteRecurrentOp (nowISO : String) (id : String)
  | undoRecentlyDeletedOp
  | clearRecentlyDeletedOp
  | undoLastActionOp
  | clearLastActionOp
  | failTodoOp (nowISO : String) (today : YMD) (id : String)
  | setLoadingOp (loading : Bool)

/-- Interpretation of one operation on the document. -/
def applyOp (op : Op) (s : BugBiteState) : BugBiteState :=
  match op with
  | .addTodoOp nowISO gen title difficulty options =>
      addTodo nowISO gen title difficulty options s
  | .updateTodoOp id u => updateTodo id u s
  | .deleteTodoOp nowISO id => deleteTodo nowISO id s
  | .addRecurrentOp nowISO today gen title difficulty intervalType timesPerDay options =>
      addRecurrent nowISO today gen title difficulty intervalType timesPerDay options s
  | .spawnOp today => spawnDueRecurrentBugs today s
  | .completeRecurrentOp id => completeRecurrent id s
  | .failRecurrentOp nowISO today id => failRecurrent nowISO today id s
  | .unlockTodoOp nowISO id => unlockTodo nowISO id s
  | .smashTodoOp nowISO today id => smashTodo nowISO today id s
  | .smashRecurrentOp nowISO today id => smashRecurrent nowISO today id s
  | .updateRecurrentOp id u => updateRecurrent id u s
  | .deleteRecurrentOp nowISO id => deleteRecurrent nowISO id s
  | .undoRecentlyDeletedOp => undoRecentlyDeleted s
  | .clearRecentlyDeletedOp => clearRecentlyDeleted s
  | .undoLastActionOp => undoLastAction s
  | .clearLastActionOp => clearLastAction s
  | .failTodoOp nowISO today id => failTodo nowISO today id s
  | .setLoadingOp loading => setLoading loading s

/-- Interpretation of a sequence of operations, first to last. -/
def applyOps (ops : List Op) (s : BugBiteState) : BugBiteState :=
  match ops with
  | [] => s
  | op :: rest => applyOps rest (applyOp op s)


/-- The monthly rule as the specification words it: same day-of-month in the
next month, clamped to the last valid day when the target month is shorter.
Stated from the spec's words, for comparison with `addIntervalDays`. -/
def monthlyClamped (d : YMD) : YMD :=
  let n := nextMonth d
  ⟨n.year, n.month, min d.day (daysInMonth n.year n.month)⟩

/-- An undo snapshot (if any) captured an in-range infestation value. -/
def snapOK : Option LastAction → Prop
  | none => True
  | some la => 0 ≤ la.prevInfestation ∧ la.prevInfestation ≤ 10

/-- Strengthened infestation invariant: the live value is in `[0, 10]` and so
is the value captured in the single-slot undo log (which `undoLastAction`
may restore). -/
def InfInv (s : BugBiteState) : Prop :=
  0 ≤ s.infestation ∧ s.infestation ≤ 10 ∧ snapOK s.lastAction

/-! ## Concrete fixtures used by witnesses and counterexamples -/

/-- A fixed "today" for concrete scenarios. -/
def d0 : YMD := ⟨2025, 5, 10⟩

/-- A fixed "now" timestamp for concrete scenarios. -/
def now0 : String := "2025-05-10T12:00:00.000Z"

/-- An already-smashed task. -/
def todoSmashedA : Todo :=
  ⟨"a", "Report", Difficulty.medium, TodoStatus.smashed, now0, none, none, none⟩

/-- A document holding only `todoSmashedA`, with 5 coins. -/
def stateC1 : BugBiteState :=
  { initialState with todos := [todoSmashedA], coins := 5 }

/-- A boss-difficulty habit. -/
def recBossR : Recurrent :=
  ⟨"r", "Gym", Difficulty.boss, IntervalType.daily, 1, 0, none, d0, none,
    now0, none, none, none⟩

/-- A document holding only `recBossR`, with infestation 0. -/
def stateC2 : BugBiteState := { initialState with recurrent := [recBossR] }

/-- A habit whose bug is unlocked (ready to smash). -/
def recUnlockedW : Recurrent :=
  ⟨"w", "Run", Difficulty.easy, IntervalType.daily, 1, 0, none, d0,
    some ActiveBugState.unlocked, now0, none, none, none⟩

/-- A document holding only `recUnlockedW`. -/
def stateC3 : BugBiteState := { initialState with recurrent := [recUnlockedW] }

/-- A document with 20 coins and infestation at the maximum 10. -/
def stateC5 : BugBiteState :=
  { initialState with coins := 20, infestation := 10 }

/-- A habit with one occurrence left today. -/
def recOnceQ : Recurrent :=
  ⟨"q", "Floss", Difficulty.easy, IntervalType.daily, 1, 1, none, d0,
    some ActiveBugState.locked, now0, none, none, none⟩

/-- A document holding only `recOnceQ`, with an empty undo slot. -/
def stateC6 : BugBiteState := { initialState with recurrent := [recOnceQ] }

/-- Task A: a locked medium task (the spec's undo scenario). -/
def taskA : Todo :=
  ⟨"A", "Task A", Difficulty.medium, TodoStatus.locked, now0, none, none, none⟩

/-- A document holding only the locked `taskA` and 0 coins. -/
def stateC7 : BugBiteState := { initialState with todos := [taskA] }

/-- `stateC7` after unlocking task A. -/
def stateC7u : BugBiteState := unlockTodo now0 "A" stateC7

/-- The undo snapshot `unlockTodo` records in `stateC7u`. -/
def laC7 : LastAction := ⟨"A", PrevEntity.todoPrev taskA, 0, 0, [], now0⟩

/-- The initial document after `addTodo "Write report" hard`. -/
def stateC9a : BugBiteState :=
  addTodo now0 (fun _ _ => "t1") "Write report" Difficulty.hard {} initialState

/-- `stateC9a` after unlocking the new task. -/
def stateC9b : BugBiteState := unlockTodo now0 "t1" stateC9a

/-- The "Write report" task as it is stored in `stateC9b`. -/
def todoC9 : Todo :=
  ⟨"t1", "Write report", Difficulty.hard, TodoStatus.unlocked, now0, none, none,
    some Outcome.plus⟩

/-! ## Helper lemmas -/

theorem FAIL_WEIGHTS_nonneg (d : Difficulty) : 0 ≤ FAIL_WEIGHTS d := by
  cases d <;> simp [FAIL_WEIGHTS]

theorem find?_map_replace (ms : StatsMap) (k : String) (v : MonthlyStats)
    (h : List.any ms (fun q => q.1 = k) = true) :
    List.find? (fun q => q.1 = k)
        (ms.map (fun q => if q.1 = k then (k, v) else q)) = some (k, v) := by
  induction ms with
  | nil => simp at h
  | cons q ms ih =>
      by_cases hq : q.1 = k
      · simp [hq]
      · simp only [List.any_cons, Bool.or_eq_true, decide_eq_true_eq, hq,
          false_or] at h
        simp only [List.map_cons, if_neg hq]
        rw [List.find?_cons_of_neg _ (by simpa using hq)]
        exact ih (by rw [List.any_eq_true] at h ⊢; exact h)

theorem getMonth?_setMonth_self (ms : StatsMap) (k : String) (v : MonthlyStats) :
    getMonth? (setMonth ms k v) k = some v := by
  unfold setMonth getMonth?
  by_cases hm : List.any ms (fun q => decide (q.1 = k)) = true
  · rw [if_pos hm, find?_map_replace ms k v (by rw [List.any_eq_true] at hm ⊢; exact hm)]
    simp
  · rw [if_neg hm, List.find?_append]
    have hnone : List.find? (fun q => decide (q.1 = k)) ms = none := by
      rw [List.find?_eq_none]
      intro x hx
      have := (List.any_eq_false.mp (Bool.eq_false_iff.mpr hm)) x hx
      simpa using this
    simp [hnone]

theorem ensureMonthlyStats_setMonth_self (ms : StatsMap) (k : String)
    (v : MonthlyStats) : ensureMonthlyStats (setMonth ms k v) k = v := by
  simp [ensureMonthlyStats, getMonth?_setMonth_self]

theorem lastMatch?_foldl_none (l : List Todo) (id : String) (acc : Option Todo) :
    List.foldl (fun acc t => if t.id = id then some t else acc) acc l = none ↔
      acc = none ∧ ∀ t ∈ l, t.id ≠ id := by
  induction l generalizing acc with
  | nil => simp
  | cons t l ih =>
      by_cases h : t.id = id
      · simp only [List.foldl_cons, if_pos h, ih]
        constructor
        · rintro ⟨h1, -⟩; exact absurd h1 (by simp)
        · rintro ⟨-, hall⟩; exact absurd h (hall t (List.mem_cons_self t l))
      · simp only [List.foldl_cons, if_neg h, ih]
        constructor
        · rintro ⟨h1, h2⟩
          refine ⟨h1, ?_⟩
          intro u hu
          rcases List.mem_cons.mp hu with rfl | hu2
          · exact h
          · exact h2 u hu2
        · rintro ⟨h1, h2⟩
          exact ⟨h1, fun u hu => h2 u (List.mem_cons_of_mem _ hu)⟩

theorem lastMatch?_eq_none_iff (l : List Todo) (id : String) :
    lastMatch? l id = none ↔ ∀ t ∈ l, t.id ≠ id := by
  unfold lastMatch?
  rw [lastMatch?_foldl_none]
  simp

theorem map_no_match (l : List Todo) (id : String) (g : Todo → Todo)
    (h : ∀ t ∈ l, t.id ≠ id) :
    l.map (fun t => if t.id = id then g t else t) = l := by
  induction l with
  | nil => rfl
  | cons t l ih =>
      simp only [List.map_cons, if_neg (h t (List.mem_cons_self t l))]
      rw [ih (fun u hu => h u (List.mem_cons_of_mem _ hu))]

theorem lastMatch?_map_aux (g : Todo → Todo) (hg : ∀ t, (g t).id = t.id)
    (id : String) (l : List Todo) (acc : Option Todo) :
    List.foldl (fun acc t => if t.id = id then some t else acc) (acc.map g)
        (l.map (fun t => if t.id = id then g t else t)) =
      (List.foldl (fun acc t => if t.id = id then some t else acc) acc l).map g := by
  induction l generalizing acc with
  | nil => rfl
  | cons t l ih =>
      by_cases h : t.id = id
      · simp only [List.map_cons, List.foldl_cons, if_pos h]
        rw [if_pos (by rw [hg]; exact h)]
        exact ih (some t)
      · simp only [List.map_cons, List.foldl_cons, if_neg h, if_neg h]
        exact ih acc

theorem lastMatch?_map (g : Todo → Todo) (hg : ∀ t, (g t).id = t.id)
    (id : String) (l : List Todo) :
    lastMatch? (l.map (fun t => if t.id = id then g t else t)) id =
      (lastMatch? l id).map g := by
  unfold lastMatch?
  simpa using lastMatch?_map_aux g hg id l none

/-! ## The infestation invariant -/

theorem infInv_initial : InfInv initialState := by
  refine ⟨?_, ?_, trivial⟩ <;> simp [initialState]

theorem applyOp_infInv (op : Op) (s : BugBiteState) (h : InfInv s) :
    InfInv (applyOp op s) := by
  obtain ⟨h0, h1, hsnap⟩ := h
  cases op with
  | addTodoOp nowISO gen title difficulty options => exact ⟨h0, h1, hsnap⟩
  | updateTodoOp id u => exact ⟨h0, h1, hsnap⟩
  | deleteTodoOp nowISO id =>
      simp only [applyOp, deleteTodo]
      split
      · exact ⟨h0, h1, hsnap⟩
      · exact ⟨h0, h1, hsnap⟩
  | addRecurrentOp nowISO today gen title difficulty intervalType timesPerDay options =>
      exact ⟨h0, h1, hsnap⟩
  | spawnOp today => exact ⟨h0, h1, hsnap⟩
  | completeRecurrentOp id => exact ⟨h0, h1, hsnap⟩
  | failRecurrentOp nowISO today id =>
      simp only [applyOp, failRecurrent]
      rcases hf : lastMatchR? s.recurrent id with - | r
      · exact ⟨h0, h1, hsnap⟩
      · exact ⟨h0, h1, ⟨h0, h1⟩⟩
  | unlockTodoOp nowISO id =>
      simp only [applyOp, unlockTodo]
      split
      · exact ⟨h0, h1, hsnap⟩
      · split
        · exact ⟨h0, h1, ⟨h0, h1⟩⟩
        · exact ⟨h0, h1, hsnap⟩
  | smashTodoOp nowISO today id =>
      simp only [applyOp, smashTodo]
      rcases hf : lastMatch? s.todos id with - | t
      · exact ⟨h0, h1, hsnap⟩
      · exact ⟨h0, h1, hsnap⟩
  | smashRecurrentOp nowISO today id =>
      simp only [applyOp, smashRecurrent]
      rcases hf : lastMatchUnlockedR? s.recurrent id with - | r
      · exact ⟨h0, h1, hsnap⟩
      · exact ⟨h0, h1, hsnap⟩
  | updateRecurrentOp id u => exact ⟨h0, h1, hsnap⟩
  | deleteRecurrentOp nowISO id =>
      simp only [applyOp, deleteRecurrent]
      split
      · exact ⟨h0, h1, hsnap⟩
      · exact ⟨h0, h1, hsnap⟩
  | undoRecentlyDeletedOp =>
      simp only [applyOp, undoRecentlyDeleted]
      split
      · exact ⟨h0, h1, hsnap⟩
      · exact ⟨h0, h1, hsnap⟩
      · exact ⟨h0, h1, hsnap⟩
  | clearRecentlyDeletedOp => exact ⟨h0, h1, hsnap⟩
  | undoLastActionOp =>
      simp only [applyOp, undoLastAction]
      rcases hla : s.lastAction with - | la
      · exact ⟨h0, h1, hsnap⟩
      · rw [hla] at hsnap
        obtain ⟨hp0, hp1⟩ := hsnap
        rcases la with ⟨itemId, prev, pc, pi, pm, atISO⟩
        cases prev with
        | todoPrev pt => exact ⟨hp0, hp1, trivial⟩
        | recurrentPrev pr => exact ⟨hp0, hp1, trivial⟩
  | clearLastActionOp => exact ⟨h0, h1, trivial⟩
  | failTodoOp nowISO today id =>
      simp only [applyOp, failTodo]
      rcases hf : lastMatch? s.todos id with - | t
      · dsimp only
        refine ⟨le_min (by norm_num) (by omega), min_le_left _ _, hsnap⟩
      · dsimp only
        refine ⟨le_min (by norm_num) ?_, min_le_left _ _, ⟨h0, h1⟩⟩
        have := FAIL_WEIGHTS_nonneg t.difficulty
        omega
  | setLoadingOp loading => exact ⟨h0, h1, hsnap⟩

theorem applyOps_infInv (ops : List Op) (s : BugBiteState) (h : InfInv s) :
    InfInv (applyOps ops s) := by
  induction ops generalizing s with
  | nil => exact h
  | cons op rest ih => exact ih (applyOp op s) (applyOp_infInv op s h)

theorem getMonth?_updateMonthlyStats (ms : StatsMap) (k : String) (u : StatsUpdate) :
    getMonth? (updateMonthlyStats ms k u) k = some
      { smashedCount := max 0 ((ensureMonthlyStats ms k).smashedCount + u.smashedDelta.getD 0)
        missedCount := max 0 ((ensureMonthlyStats ms k).missedCount + u.missedDelta.getD 0)
        smashedItems :=
          match u.smashedItem with
          | some item => pushMonthlyItem (ensureMonthlyStats ms k).smashedItems item
          | none => (ensureMonthlyStats ms k).smashedItems
        missedItems :=
          match u.missedItem with
          | some item => pushMonthlyItem (ensureMonthlyStats ms k).missedItems item
          | none => (ensureMonthlyStats ms k).missedItems } := by
  unfold updateMonthlyStats
  exact getMonth?_setMonth_self _ _ _

theorem ensureMonthlyStats_updateMonthlyStats (ms : StatsMap) (k : String)
    (u : StatsUpdate) :
    ensureMonthlyStats (updateMonthlyStats ms k u) k =
      { smashedCount := max 0 ((ensureMonthlyStats ms k).smashedCount + u.smashedDelta.getD 0)
        missedCount := max 0 ((ensureMonthlyStats ms k).missedCount + u.missedDelta.getD 0)
        smashedItems :=
          match u.smashedItem with
          | some item => pushMonthlyItem (ensureMonthlyStats ms k).smashedItems item
          | none => (ensureMonthlyStats ms k).smashedItems
        missedItems :=
          match u.missedItem with
          | some item => pushMonthlyItem (ensureMonthlyStats ms k).missedItems item
          | none => (ensureMonthlyStats ms k).missedItems } := by
  unfold updateMonthlyStats
  exact ensureMonthlyStats_setMonth_self _ _ _

/-! ## Claim theorems -/

/-- C5 (counterpart theorem): `buyPoison` follows the fixed catalogue
small 5/1, medium 12/3, large 18/5; with insufficient coins it makes no
state change; otherwise it debits the cost, reduces infestation floored at
0, and never drives non-negative coins negative. -/
theorem buyPoison_spec (size : PoisonSize) (s : BugBiteState) :
    (POISON_COST PoisonSize.small = 5 ∧ POISON_CLEAR PoisonSize.small = 1 ∧
      POISON_COST PoisonSize.medium = 12 ∧ POISON_CLEAR PoisonSize.medium = 3 ∧
      POISON_COST PoisonSize.large = 18 ∧ POISON_CLEAR PoisonSize.large = 5) ∧
    (s.coins < POISON_COST size → buyPoison size s = s) ∧
    (POISON_COST size ≤ s.coins →
      (buyPoison size s).coins = s.coins - POISON_COST size ∧
      (buyPoison size s).infestation = max 0 (s.infestation - POISON_CLEAR size)) ∧
    (0 ≤ s.coins → 0 ≤ (buyPoison size s).coins) := by
  refine ⟨⟨rfl, rfl, rfl, rfl, rfl, rfl⟩, ?_, ?_, ?_⟩
  · intro h
    simp [buyPoison, h]
  · intro h
    rw [buyPoison, if_neg (not_lt.mpr h)]
    exact ⟨rfl, rfl⟩
  · intro h
    unfold buyPoison
    split
    · exact h
    · rename_i hge
      dsimp only
      omega

/-- Witness for C5: with 20 coins and infestation 10, a large poison leaves
2 coins and infestation 5. -/
theorem buyPoison_spec_witness :
    POISON_COST PoisonSize.large ≤ stateC5.coins ∧
    (buyPoison PoisonSize.large stateC5).coins =
      stateC5.coins - POISON_COST PoisonSize.large ∧
    (buyPoison PoisonSize.large stateC5).infestation =
      max 0 (stateC5.infestation - POISON_CLEAR PoisonSize.large) ∧
    (buyPoison PoisonSize.large stateC5).coins = 2 ∧
    (buyPoison PoisonSize.large stateC5).infestation = 5 := by
  have h := (buyPoison_spec PoisonSize.large stateC5).2.2.1 (by decide)
  exact ⟨by decide, h.1, h.2, by decide, by decide⟩

/-- Counterexample for C4: an all-whitespace title still creates a task;
`addTodo` does not return the document unchanged. -/
theorem addTodo_empty_title_counterexample :
    strTrim "   " = "" ∧ initialState.todos = [] ∧
    (addTodo now0 (fun _ _ => "id") "   " Difficulty.easy {} initialState).todos.length = 1 ∧
    addTodo now0 (fun _ _ => "id") "   " Difficulty.easy {} initialState ≠ initialState := by
  decide

/-- C4 (amended): `addTodo` performs no title validation: even when the
title trims to the empty string it creates `count` tasks (count clamped to
`[1, 10]`), so the document is never returned unchanged. -/
theorem addTodo_no_validation_spec (nowISO : String) (gen : Nat → Nat → String)
    (title : String) (difficulty : Difficulty) (options : AddTodoOptions)
    (s : BugBiteState) (h : strTrim title = "") :
    (addTodo nowISO gen title difficulty options s).todos.length =
      (min 10 (max 1 (options.count.getD 1))).toNat + s.todos.length ∧
    1 ≤ (min 10 (max 1 (options.count.getD 1))).toNat := by
  constructor
  · simp [addTodo]
  · omega

/-- Witness for C4 at the all-whitespace title. -/
theorem addTodo_no_validation_spec_witness :
    strTrim "   " = "" ∧
    (addTodo now0 (fun _ _ => "id") "   " Difficulty.easy {} initialState).todos.length =
      (min 10 (max 1 (({} : AddTodoOptions).count.getD 1))).toNat +
        initialState.todos.length := by
  exact ⟨by decide,
    (addTodo_no_validation_spec now0 (fun _ _ => "id") "   " Difficulty.easy {}
      initialState (by decide)).1⟩

theorem nextMonth_day (d : YMD) : (nextMonth d).day = d.day := by
  unfold nextMonth
  split <;> rfl

/-- Counterexample for C3: Jan 31 + 1 month under `addIntervalDays` lands in
March (day overflow), not on the clamped Feb 28 the claim requires. -/
theorem addIntervalDays_monthly_counterexample :
    addIntervalDays ⟨2025, 1, 31⟩ IntervalType.monthly = ⟨2025, 3, 3⟩ ∧
    monthlyClamped ⟨2025, 1, 31⟩ = ⟨2025, 2, 28⟩ ∧
    addIntervalDays ⟨2025, 1, 31⟩ IntervalType.monthly ≠
      monthlyClamped ⟨2025, 1, 31⟩ := by
  decide

/-- C3 (amended): a successful `smashRecurrent` advances `nextDueDate` by
`addIntervalDays`: daily adds 1 day, weekly adds 7 days, and monthly moves
to the same day-of-month in the next month when that day exists there, but
when the target month is shorter the date overflows past the end of the
month into the following month by the excess days (no clamping). -/
theorem smashRecurrent_advance_spec (nowISO : String) (today : YMD) (id : String)
    (s : BugBiteState) :
    (∀ r, r ∈ s.recurrent → r.id = id →
      r.activeBugState = some ActiveBugState.unlocked →
      { r with
        activeBugState := none
        remainingToday := 0
        lastOutcome := none
        nextDueDateISO := addIntervalDays r.nextDueDateISO r.intervalType } ∈
        (smashRecurrent nowISO today id s).recurrent) ∧
    (∀ d : YMD, addIntervalDays d IntervalType.daily = addDays 1 d) ∧
    (∀ d : YMD, addIntervalDays d IntervalType.weekly = addDays 7 d) ∧
    (∀ d : YMD, d.day ≤ daysInMonth (nextMonth d).year (nextMonth d).month →
      addIntervalDays d IntervalType.monthly = nextMonth d) ∧
    (∀ d : YMD, daysInMonth (nextMonth d).year (nextMonth d).month < d.day →
      (nextMonth d).month < 12 →
      addIntervalDays d IntervalType.monthly =
        ⟨(nextMonth d).year, (nextMonth d).month + 1,
          d.day - daysInMonth (nextMonth d).year (nextMonth d).month⟩) := by
  refine ⟨?_, fun d => rfl, fun d => rfl, ?_, ?_⟩
  · intro r hr hid hunlocked
    simp only [smashRecurrent]
    have hmem := List.mem_map_of_mem
      (fun item =>
        if item.id = id ∧ item.activeBugState = some ActiveBugState.unlocked then
          { item with
            activeBugState := none
            remainingToday := 0
            lastOutcome := none
            nextDueDateISO := addIntervalDays item.nextDueDateISO item.intervalType }
        else item) hr
    simpa [hid, hunlocked] using hmem
  · intro d hle
    show normalizeDay (nextMonth d) = nextMonth d
    unfold normalizeDay
    rw [if_pos (by rw [nextMonth_day]; exact hle)]
  · intro d hlt hm
    show normalizeDay (nextMonth d) =
      ⟨(nextMonth d).year, (nextMonth d).month + 1,
        d.day - daysInMonth (nextMonth d).year (nextMonth d).month⟩
    unfold normalizeDay
    rw [if_neg (by rw [nextMonth_day]; omega), if_pos hm, nextMonth_day]

/-- Witness for C3: smashing the unlocked daily habit advances its due date
from 2025-05-10 to 2025-05-11. -/
theorem smashRecurrent_advance_spec_witness :
    recUnlockedW ∈ stateC3.recurrent ∧ recUnlockedW.id = "w" ∧
    recUnlockedW.activeBugState = some ActiveBugState.unlocked ∧
    { recUnlockedW with
      activeBugState := none
      remainingToday := 0
      lastOutcome := none
      nextDueDateISO := addIntervalDays recUnlockedW.nextDueDateISO
        recUnlockedW.intervalType } ∈
      (smashRecurrent now0 d0 "w" stateC3).recurrent ∧
    addIntervalDays recUnlockedW.nextDueDateISO recUnlockedW.intervalType =
      ⟨2025, 5, 11⟩ := by
  refine ⟨by decide, by decide, by decide, ?_, by decide⟩
  exact (smashRecurrent_advance_spec now0 d0 "w" stateC3).1 recUnlockedW
    (by decide) (by decide) (by decide)

/-- Counterexample for C1: `smashTodo` on an already-smashed todo is not a
no-op — it credits the coin reward again and changes the document. -/
theorem smashTodo_already_smashed_counterexample :
    todoSmashedA ∈ stateC1.todos ∧
    todoSmashedA.status ≠ TodoStatus.unlocked ∧
    stateC1.coins = 5 ∧
    (smashTodo now0 d0 "a" stateC1).coins = 7 ∧
    smashTodo now0 d0 "a" stateC1 ≠ stateC1 := by
  decide

/-- C1 (amended): `smashTodo` checks only the id, not the status: it is a
no-op exactly when no todo carries the id; on a present todo of any status
(locked, unlocked or already smashed) it marks it smashed, credits
`COIN_REWARDS` for its difficulty, and bumps the month's smashed count — so
a repeated call on an already-smashed todo credits coins again. -/
theorem smashTodo_unguarded_spec (nowISO : String) (today : YMD) (id : String)
    (s : BugBiteState) :
    ((∀ t ∈ s.todos, t.id ≠ id) → smashTodo nowISO today id s = s) ∧
    (∀ t, lastMatch? s.todos id = some t →
      (smashTodo nowISO today id s).coins = s.coins + COIN_REWARDS t.difficulty ∧
      (∀ u ∈ s.todos, u.id = id →
        { u with status := TodoStatus.smashed, lastOutcome := none } ∈
          (smashTodo nowISO today id s).todos) ∧
      ∃ st, getMonth? (smashTodo nowISO today id s).monthlyStats
          (getMonthKey today) = some st ∧
        st.smashedCount =
          max 0 ((ensureMonthlyStats s.monthlyStats (getMonthKey today)).smashedCount + 1)) := by
  constructor
  · intro h
    have hnone : lastMatch? s.todos id = none := (lastMatch?_eq_none_iff _ _).mpr h
    have hmap := map_no_match s.todos id
      (fun t => { t with status := TodoStatus.smashed, lastOutcome := none }) h
    simp only [smashTodo, hnone, hmap]
    cases s
    simp
  · intro t ht
    refine ⟨?_, ?_, ?_⟩
    · simp [smashTodo, ht]
    · intro u hu huid
      simp only [smashTodo]
      have hmem := List.mem_map_of_mem
        (fun t =>
          if t.id = id then { t with status := TodoStatus.smashed, lastOutcome := none }
          else t) hu
      simpa [huid] using hmem
    · simp only [smashTodo, ht]
      exact ⟨_, getMonth?_updateMonthlyStats _ _ _, rfl⟩

/-- Witness for C1 at the already-smashed todo: the reward is credited a
second time. -/
theorem smashTodo_unguarded_spec_witness :
    lastMatch? stateC1.todos "a" = some todoSmashedA ∧
    (smashTodo now0 d0 "a" stateC1).coins =
      stateC1.coins + COIN_REWARDS Difficulty.medium := by
  have h := (smashTodo_unguarded_spec now0 d0 "a" stateC1).2 todoSmashedA (by decide)
  exact ⟨by decide, h.1⟩

/-- Counterexample for C2: failing a present boss habit leaves infestation
at 0 where the claim requires clamp(0 + 3, 0, 10) = 3. -/
theorem failRecurrent_infestation_counterexample :
    recBossR ∈ stateC2.recurrent ∧
    stateC2.infestation = 0 ∧
    FAIL_WEIGHTS Difficulty.boss = 3 ∧
    (failRecurrent now0 d0 "r" stateC2).infestation = 0 := by
  decide

/-- C2 (amended): `failTodo` on a present task sets infestation to
`min(10, infestation + FAIL_WEIGHTS[difficulty])` (the claim's clamp on the
reachable states, where infestation is non-negative) and bumps the month's
missed count; `failRecurrent` on a present habit bumps the missed count but
leaves infestation unchanged. -/
theorem fail_penalty_spec (nowISO : String) (today : YMD) (id : String)
    (s : BugBiteState) :
    (∀ t, lastMatch? s.todos id = some t →
      (failTodo nowISO today id s).infestation =
        min 10 (s.infestation + FAIL_WEIGHTS t.difficulty) ∧
      ∃ st, getMonth? (failTodo nowISO today id s).monthlyStats
          (getMonthKey today) = some st ∧
        st.missedCount =
          max 0 ((ensureMonthlyStats s.monthlyStats (getMonthKey today)).missedCount + 1)) ∧
    (∀ r, lastMatchR? s.recurrent id = some r →
      (failRecurrent nowISO today id s).infestation = s.infestation ∧
      ∃ st, getMonth? (failRecurrent nowISO today id s).monthlyStats
          (getMonthKey today) = some st ∧
        st.missedCount =
          max 0 ((ensureMonthlyStats s.monthlyStats (getMonthKey today)).missedCount + 1)) := by
  constructor
  · intro t ht
    constructor
    · simp [failTodo, ht]
    · simp only [failTodo, ht]
      exact ⟨_, getMonth?_updateMonthlyStats _ _ _, rfl⟩
  · intro r hr
    constructor
    · simp [failRecurrent, hr]
    · simp only [failRecurrent, hr]
      exact ⟨_, getMonth?_updateMonthlyStats _ _ _, rfl⟩

/-- Witness for C2: a medium task raises infestation to min(10, 0+1); the
boss habit leaves it unchanged. -/
theorem fail_penalty_spec_witness :
    lastMatch? stateC7.todos "A" = some taskA ∧
    (failTodo now0 d0 "A" stateC7).infestation =
      min 10 (stateC7.infestation + FAIL_WEIGHTS Difficulty.medium) ∧
    lastMatchR? stateC2.recurrent "r" = some recBossR ∧
    (failRecurrent now0 d0 "r" stateC2).infestation = stateC2.infestation := by
  have h1 := (fail_penalty_spec now0 d0 "A" stateC7).1 taskA (by decide)
  have h2 := (fail_penalty_spec now0 d0 "r" stateC2).2 recBossR (by decide)
  exact ⟨by decide, h1.1, by decide, h2.1⟩

/-- Counterexample for C6: `completeRecurrent` mutates an existing habit
(one occurrence left) yet stores nothing in the `lastAction` slot. -/
theorem completeRecurrent_no_snapshot_counterexample :
    recOnceQ ∈ stateC6.recurrent ∧
    stateC6.lastAction = none ∧
    (completeRecurrent "q" stateC6).recurrent ≠ stateC6.recurrent ∧
    (completeRecurrent "q" stateC6).lastAction = none := by
  decide

/-- C6 (amended): `unlockTodo`, `failTodo` and `failRecurrent` snapshot the
prior entity, coins, infestation and monthly stats into the single
`lastAction` slot (overwriting it) when they mutate an existing entity;
`completeRecurrent`, however, never records a snapshot. -/
theorem undoable_snapshot_spec (nowISO : String) (today : YMD) (id : String)
    (s : BugBiteState) :
    (∀ target, s.todos.find? (fun t => t.id = id) = some target →
      target.status = TodoStatus.locked →
      (unlockTodo nowISO id s).lastAction =
        some ⟨id, PrevEntity.todoPrev target, s.coins, s.infestation,
          s.monthlyStats, nowISO⟩) ∧
    (∀ t, lastMatch? s.todos id = some t →
      (failTodo nowISO today id s).lastAction =
        some ⟨id, PrevEntity.todoPrev t, s.coins, s.infestation,
          s.monthlyStats, nowISO⟩) ∧
    (∀ r, lastMatchR? s.recurrent id = some r →
      (failRecurrent nowISO today id s).lastAction =
        some ⟨id, PrevEntity.recurrentPrev r, s.coins, s.infestation,
          s.monthlyStats, nowISO⟩) ∧
    (completeRecurrent id s).lastAction = s.lastAction := by
  refine ⟨?_, ?_, ?_, rfl⟩
  · intro target hfind hlocked
    simp only [unlockTodo, hfind]
    rw [if_pos hlocked]
  · intro t ht
    simp [failTodo, ht]
  · intro r hr
    simp [failRecurrent, hr]

/-- Witness for C6: unlocking locked task A records its snapshot; completing
the habit leaves the empty slot empty. -/
theorem undoable_snapshot_spec_witness :
    stateC7.todos.find? (fun t => t.id = "A") = some taskA ∧
    taskA.status = TodoStatus.locked ∧
    (unlockTodo now0 "A" stateC7).lastAction =
      some ⟨"A", PrevEntity.todoPrev taskA, stateC7.coins, stateC7.infestation,
        stateC7.monthlyStats, now0⟩ ∧
    (completeRecurrent "q" stateC6).lastAction = stateC6.lastAction := by
  have h := (undoable_snapshot_spec now0 d0 "A" stateC7).1 taskA (by decide) (by decide)
  have h2 := (undoable_snapshot_spec now0 d0 "q" stateC6).2.2.2
  exact ⟨by decide, by decide, h, h2⟩

/-- C7: `undoLastAction` with an empty slot is a no-op; with a snapshot it
restores the captured coins, infestation and monthly stats verbatim, puts
the captured entity back in place of the current one, and clears the slot. -/
theorem undoLastAction_restores_spec (s : BugBiteState) :
    (s.lastAction = none → undoLastAction s = s) ∧
    (∀ la, s.lastAction = some la →
      (undoLastAction s).coins = la.prevCoins ∧
      (undoLastAction s).infestation = la.prevInfestation ∧
      (undoLastAction s).monthlyStats = la.prevMonthlyStats ∧
      (undoLastAction s).lastAction = none ∧
      (∀ pt, la.prev = PrevEntity.todoPrev pt →
        ∀ t ∈ s.todos, t.id = la.itemId → pt ∈ (undoLastAction s).todos) ∧
      (∀ pr, la.prev = PrevEntity.recurrentPrev pr →
        ∀ r ∈ s.recurrent, r.id = la.itemId → pr ∈ (undoLastAction s).recurrent)) := by
  constructor
  · intro h
    simp [undoLastAction, h]
  · intro la hla
    rcases la with ⟨itemId, prev, pc, pi, pm, atISO⟩
    cases prev with
    | todoPrev pt =>
        refine ⟨by simp [undoLastAction, hla], by simp [undoLastAction, hla],
          by simp [undoLastAction, hla], by simp [undoLastAction, hla], ?_, ?_⟩
        · intro pt' hpt t ht hid
          simp only [undoLastAction, hla]
          injection hpt with heq
          subst heq
          have hmem := List.mem_map_of_mem (fun t => if t.id = itemId then pt else t) ht
          simpa [hid] using hmem
        · intro pr' hpr
          exact PrevEntity.noConfusion hpr
    | recurrentPrev pr =>
        refine ⟨by simp [undoLastAction, hla], by simp [undoLastAction, hla],
          by simp [undoLastAction, hla], by simp [undoLastAction, hla], ?_, ?_⟩
        · intro pt' hpt
          exact PrevEntity.noConfusion hpt
        · intro pr' hpr r hr hid
          simp only [undoLastAction, hla]
          injection hpr with heq
          subst heq
          have hmem := List.mem_map_of_mem (fun r => if r.id = itemId then pr else r) hr
          simpa [hid] using hmem

/-- Witness for C7: unlock locked task A with 0 coins, undo — A is locked
again and the coin total is back to 0. -/
theorem undoLastAction_restores_spec_witness :
    stateC7u.lastAction = some laC7 ∧
    (undoLastAction stateC7u).coins = laC7.prevCoins ∧
    (undoLastAction stateC7u).lastAction = none ∧
    (undoLastAction stateC7u).todos = [taskA] ∧
    taskA.status = TodoStatus.locked ∧
    (undoLastAction stateC7u).coins = 0 := by
  have h := (undoLastAction_restores_spec stateC7u).2 laC7 (by decide)
  exact ⟨by decide, h.1, h.2.2.2.1, by decide, by decide, by decide⟩

/-- C8: starting from the initial document, every sequence of engine
operations keeps infestation in `[0, 10]`, and every single operation
preserves the (strengthened) infestation invariant. -/
theorem infestation_invariant_spec :
    (∀ ops : List Op, 0 ≤ (applyOps ops initialState).infestation ∧
      (applyOps ops initialState).infestation ≤ 10) ∧
    (∀ op s, InfInv s → InfInv (applyOp op s)) := by
  constructor
  · intro ops
    obtain ⟨a, b, -⟩ := applyOps_infInv ops initialState infInv_initial
    exact ⟨a, b⟩
  · exact fun op s h => applyOp_infInv op s h

/-- Witness for C8 at a concrete operation and state. -/
theorem infestation_invariant_spec_witness :
    InfInv initialState ∧ InfInv (applyOp Op.clearLastActionOp initialState) := by
  have h : InfInv initialState := by
    refine ⟨?_, ?_, trivial⟩ <;> simp [initialState]
  exact ⟨h, infestation_invariant_spec.2 Op.clearLastActionOp initialState h⟩

/-- C9: smashing a present task credits exactly `COIN_REWARDS` for its
difficulty (easy 1, medium 2, hard 3, boss 5) and increments the month's
smashed count by one. -/
theorem smash_reward_spec (nowISO : String) (today : YMD) (id : String)
    (s : BugBiteState) (t : Todo) (h : lastMatch? s.todos id = some t)
    (hsc : 0 ≤ (ensureMonthlyStats s.monthlyStats (getMonthKey today)).smashedCount) :
    (smashTodo nowISO today id s).coins = s.coins + COIN_REWARDS t.difficulty ∧
    ∃ st, getMonth? (smashTodo nowISO today id s).monthlyStats
        (getMonthKey today) = some st ∧
      st.smashedCount =
        (ensureMonthlyStats s.monthlyStats (getMonthKey today)).smashedCount + 1 := by
  constructor
  · simp [smashTodo, h]
  · simp only [smashTodo, h]
    refine ⟨_, getMonth?_updateMonthlyStats _ _ _, ?_⟩
    show max 0 ((ensureMonthlyStats s.monthlyStats (getMonthKey today)).smashedCount + 1) =
      (ensureMonthlyStats s.monthlyStats (getMonthKey today)).smashedCount + 1
    omega

/-- Witness for C9: the end-to-end scenario — add "Write report" (hard),
unlock it, smash it: coins end at 3 and the month's smashed count at 1. -/
theorem smash_reward_spec_witness :
    lastMatch? stateC9b.todos "t1" = some todoC9 ∧
    0 ≤ (ensureMonthlyStats stateC9b.monthlyStats (getMonthKey d0)).smashedCount ∧
    (smashTodo now0 d0 "t1" stateC9b).coins =
      stateC9b.coins + COIN_REWARDS Difficulty.hard ∧
    (smashTodo now0 d0 "t1" stateC9b).coins = 3 ∧
    (ensureMonthlyStats (smashTodo now0 d0 "t1" stateC9b).monthlyStats
      "2025-05").smashedCount = 1 := by
  have h := smash_reward_spec now0 d0 "t1" stateC9b todoC9 (by decide) (by decide)
  exact ⟨by decide, by decide, h.1, by decide, by decide⟩

/-- C10: besides bumping the missed count, every fail on a present entity
also decrements the month's smashed count (floored at 0), so a smash
followed by a fail in the same month restores the pre-smash count. -/
theorem fail_decrements_smashed_spec (nowISO : String) (today : YMD) (id : String)
    (s : BugBiteState) :
    (∀ t, lastMatch? s.todos id = some t →
      ∃ st, getMonth? (failTodo nowISO today id s).monthlyStats
          (getMonthKey today) = some st ∧
        st.smashedCount =
          max 0 ((ensureMonthlyStats s.monthlyStats (getMonthKey today)).smashedCount - 1) ∧
        st.missedCount =
          max 0 ((ensureMonthlyStats s.monthlyStats (getMonthKey today)).missedCount + 1)) ∧
    (∀ r, lastMatchR? s.recurrent id = some r →
      ∃ st, getMonth? (failRecurrent nowISO today id s).monthlyStats
          (getMonthKey today) = some st ∧
        st.smashedCount =
          max 0 ((ensureMonthlyStats s.monthlyStats (getMonthKey today)).smashedCount - 1) ∧
        st.missedCount =
          max 0 ((ensureMonthlyStats s.monthlyStats (getMonthKey today)).missedCount + 1)) ∧
    (∀ t, lastMatch? s.todos id = some t →
      0 ≤ (ensureMonthlyStats s.monthlyStats (getMonthKey today)).smashedCount →
      ∃ st, getMonth? (failTodo nowISO today id
          (smashTodo nowISO today id s)).monthlyStats (getMonthKey today) = some st ∧
        st.smashedCount =
          (ensureMonthlyStats s.monthlyStats (getMonthKey today)).smashedCount) := by
  refine ⟨?_, ?_, ?_⟩
  · intro t ht
    simp only [failTodo, ht]
    refine ⟨_, getMonth?_updateMonthlyStats _ _ _, ?_, ?_⟩
    · show max 0 ((ensureMonthlyStats s.monthlyStats (getMonthKey today)).smashedCount + -1) =
        max 0 ((ensureMonthlyStats s.monthlyStats (getMonthKey today)).smashedCount - 1)
      omega
    · show max 0 ((ensureMonthlyStats s.monthlyStats (getMonthKey today)).missedCount + 1) =
        max 0 ((ensureMonthlyStats s.monthlyStats (getMonthKey today)).missedCount + 1)
      omega
  · intro r hr
    simp only [failRecurrent, hr]
    refine ⟨_, getMonth?_updateMonthlyStats _ _ _, ?_, ?_⟩
    · show max 0 ((ensureMonthlyStats s.monthlyStats (getMonthKey today)).smashedCount + -1) =
        max 0 ((ensureMonthlyStats s.monthlyStats (getMonthKey today)).smashedCount - 1)
      omega
    · show max 0 ((ensureMonthlyStats s.monthlyStats (getMonthKey today)).missedCount + 1) =
        max 0 ((ensureMonthlyStats s.monthlyStats (getMonthKey today)).missedCount + 1)
      omega
  · intro t ht hsc
    have h2 : lastMatch? (smashTodo nowISO today id s).todos id =
        some { t with status := TodoStatus.smashed, lastOutcome := none } := by
      simp only [smashTodo]
      rw [lastMatch?_map
        (fun u => { u with status := TodoStatus.smashed, lastOutcome := none })
        (fun u => rfl) id s.todos, ht]
      rfl
    have h3 : (smashTodo nowISO today id s).monthlyStats =
        updateMonthlyStats s.monthlyStats (getMonthKey today)
          { smashedDelta := some 1
            smashedItem := some ⟨t.id, t.title, nowISO, t.difficulty, EntryType.todo⟩ } := by
      simp [smashTodo, ht]
    simp only [failTodo, h2]
    refine ⟨_, getMonth?_updateMonthlyStats _ _ _, ?_⟩
    rw [h3, ensureMonthlyStats_updateMonthlyStats]
    show max 0 (max 0 ((ensureMonthlyStats s.monthlyStats (getMonthKey today)).smashedCount + 1) + -1) =
      (ensureMonthlyStats s.monthlyStats (getMonthKey today)).smashedCount
    omega

/-- Witness for C10: smash task A then fail it in the same month — the
smashed count ends back at its initial 0. -/
theorem fail_decrements_smashed_spec_witness :
    lastMatch? stateC7.todos "A" = some taskA ∧
    0 ≤ (ensureMonthlyStats stateC7.monthlyStats (getMonthKey d0)).smashedCount ∧
    (∃ st, getMonth? (failTodo now0 d0 "A"
        (smashTodo now0 d0 "A" stateC7)).monthlyStats (getMonthKey d0) = some st ∧
      st.smashedCount =
        (ensureMonthlyStats stateC7.monthlyStats (getMonthKey d0)).smashedCount) ∧
    (ensureMonthlyStats (failTodo now0 d0 "A"
      (smashTodo now0 d0 "A" stateC7)).monthlyStats "2025-05").smashedCount = 0 := by
  refine ⟨by decide, by decide,
    (fail_decrements_smashed_spec now0 d0 "A" stateC7).2.2 taskA (by decide) (by decide),
    by decide⟩
